import Mathlib

/-!
Shallow embedding of the `ultasonic`/`ultrasonic33` MakeCode ultrasonic
driver (src/main.ts).  JavaScript numbers are modelled as `ℚ`; the external
`pins.pulseIn` capability is modelled as a stream `env : ℕ → ℚ` giving the
duration returned by the k-th `pulseIn` call, and each driver function
threads the index of the next unconsumed reading.
-/

/-- Truncation toward zero of a rational (step 1 of the JS `ToInt32`
conversion performed by `x | 0`). -/
def ratTrunc (q : ℚ) : ℤ := if 0 ≤ q then ⌊q⌋ else ⌈q⌉

/-- JS `x | 0` (ToInt32): truncate toward zero, then wrap into
`[-2^31, 2^31)`. -/
def toInt32 (q : ℚ) : ℤ := (ratTrunc q + 2 ^ 31) % 2 ^ 32 - 2 ^ 31

namespace ultrasonic

/-- Embedding of `ultrasonic.Unit` from src/main.ts. -/
inductive Unit where
  | Centimeters
  | Inches
deriving DecidableEq

/-- Module-level mutable state of the `ultrasonic` namespace:
`_trig`, `_echo` (pins as naturals), `_maxUs`, `_polling`. -/
structure State where
  trig : ℕ
  echo : ℕ
  maxUs : ℤ
  polling : Bool

/-- Initial module state: `_trig = P1`, `_echo = P0`, `_maxUs = 25000`,
`_polling = false`. -/
def initState : State := { trig := 1, echo := 0, maxUs := 25000, polling := false }

/-- Embedding of `ultrasonic.setPins` (the pin-level side effects are external). -/
def setPins (s : State) (trig echo : ℕ) : State := { s with trig := trig, echo := echo }

/-- Embedding of `ultrasonic.setMaxMicros`: `_maxUs = Math.max(3000, Math.min(40000, maxMicros | 0))`. -/
def setMaxMicros (s : State) (maxMicros : ℚ) : State :=
  { s with maxUs := max 3000 (min 40000 (toInt32 maxMicros)) }

/-- Embedding of `ultrasonic.measureOnceCm`: one trigger/measure cycle.  It consumes the
reading `env k` of the single `pins.pulseIn` call it performs; `d ≤ 0`
(timeout) yields the 0 sentinel, otherwise `d / 58` centimeters. -/
def measureOnceCm (env : ℕ → ℚ) (k : ℕ) : ℚ :=
  let d := env k
  if d ≤ 0 then 0 else d / 58

/-- Accumulator state of the sampling loop in `ultrasonic.read`:
running `sum` and `cnt`, the index of the next unconsumed pulse reading,
and the number of single-shot measurements performed. -/
structure ReadAcc where
  sum : ℚ
  cnt : ℕ
  next : ℕ
  shots : ℕ

/-- The `for` loop of `ultrasonic.read`: `if (cm > 0) { sum += cm; cnt++ }`
per iteration, one `measureOnceCm` per iteration. -/
def readAux (env : ℕ → ℚ) : ℕ → ℕ → ℚ → ℕ → ReadAcc
  | k, 0, sum, cnt => ⟨sum, cnt, k, 0⟩
  | k, n + 1, sum, cnt =>
    let cm := measureOnceCm env k
    let r := if 0 < cm then readAux env (k + 1) n (sum + cm) (cnt + 1)
             else readAux env (k + 1) n sum cnt
    ⟨r.sum, r.cnt, r.next, r.shots + 1⟩

/-- The clamp `samples = Math.max(1, Math.min(10, samples | 0))` in `ultrasonic.read`,
as a loop iteration count. -/
def clampSamples (samples : ℚ) : ℕ := (max 1 (min 10 (toInt32 samples))).toNat

/-- Embedding of `ultrasonic.read`: clamp the sample count, run the sampling loop,
average the valid samples (0 if none), convert to inches if requested. -/
def read (st : State) (env : ℕ → ℚ) (k : ℕ) (unit : Unit) (samples : ℚ) : ℚ :=
  let r := readAux env k (clampSamples samples) 0 0
  let cmAvg : ℚ := if 0 < r.cnt then r.sum / (r.cnt : ℚ) else 0
  if unit = Unit.Inches then cmAvg / 2.54 else cmAvg

/-- Number of single-shot measurements performed by `ultrasonic.read`. -/
def readShots (env : ℕ → ℚ) (k : ℕ) (samples : ℚ) : ℕ :=
  (readAux env k (clampSamples samples) 0 0).shots

/-- Embedding of `ultrasonic.distanceCm`, which is `read(Unit.Centimeters, 1)`. -/
def distanceCm (st : State) (env : ℕ → ℚ) (k : ℕ) : ℚ :=
  read st env k Unit.Centimeters 1

/-- The list of single-shot values produced by the loop of
`ultrasonic.read` (sample `i` consumes reading `k + i`). -/
def readVals (env : ℕ → ℚ) : ℕ → ℕ → List ℚ
  | _, 0 => []
  | k, n + 1 => measureOnceCm env k :: readVals env (k + 1) n

/-- The clamp `threshold = Math.max(2, Math.min(400, threshold | 0))` in
`ultrasonic.onDistanceLessThan`. -/
def clampThreshold (t : ℚ) : ℤ := max 2 (min 400 (toInt32 t))

/-- The background polling loop registered by
`ultrasonic.onDistanceLessThan`, unrolled for a given number of
iterations.  Each iteration measures `distanceCm` (which consumes exactly
one pulse reading, since it averages a single sample) and records the pair
(measured cm, whether the handler was invoked); the handler fires exactly
when `cm > 0 && cm < threshold` with the clamped threshold. -/
def watcherTrace (st : State) (env : ℕ → ℚ) (threshold : ℚ) : ℕ → ℕ → List (ℚ × Bool)
  | _, 0 => []
  | k, n + 1 =>
    let cm := distanceCm st env k
    (cm, decide (0 < cm ∧ cm < (clampThreshold threshold : ℚ))) ::
      watcherTrace st env threshold (k + 1) n

end ultrasonic

namespace ultrasonic33

/-- Embedding of `ultrasonic33.Unit` from src/main.ts. -/
inductive Unit where
  | Centimeters
  | Inches
deriving DecidableEq

/-- Echo-pulse polarity passed to `pins.pulseIn`. -/
inductive Pulse where
  | High
  | Low
deriving DecidableEq

/-- Observable side effects of `measureOnceCmRobust`: trigger-pin writes,
microsecond waits, and `pins.pulseIn` calls with their polarity/timeout. -/
inductive Action where
  | writeTrig (level : ℕ)
  | waitUs (us : ℤ)
  | pulse (pol : Pulse) (timeoutUs : ℤ)
deriving DecidableEq

/-- Module-level mutable state of the `ultrasonic33` namespace:
`_trig`, `_echo`, `_maxUs`, `_settleUs`. -/
structure State where
  trig : ℕ
  echo : ℕ
  maxUs : ℤ
  settleUs : ℤ

/-- Initial module state: `_trig = P1`, `_echo = P2`, `_maxUs = 40000`,
`_settleUs = 600`. -/
def initState : State := { trig := 1, echo := 2, maxUs := 40000, settleUs := 600 }

/-- Embedding of `ultrasonic33.setPins` (pin-level side effects are external). -/
def setPins (s : State) (trig echo : ℕ) : State := { s with trig := trig, echo := echo }

/-- Embedding of `ultrasonic33.setTiming`:
`_maxUs = Math.max(15000, Math.min(60000, maxMicros | 0))`,
`_settleUs = Math.max(100, Math.min(2000, settleMicros | 0))`. -/
def setTiming (s : State) (maxMicros settleMicros : ℚ) : State :=
  { s with maxUs := max 15000 (min 60000 (toInt32 maxMicros)),
           settleUs := max 100 (min 2000 (toInt32 settleMicros)) }

/-- Result of one robust single-shot measurement: the centimeter value (0 on
failure), the index of the next unconsumed pulse reading, and the trace of
observable actions performed. -/
structure ShotResult where
  cm : ℚ
  next : ℕ
  acts : List Action

/-- Embedding of `ultrasonic33.measureOnceCmRobust`: 30µs trigger, settle delay, then up
to four `pulseIn` attempts (HIGH, LOW, and after a 20µs re-trigger HIGH,
LOW again), consuming one reading of `env` per attempt; final duration
`≤ 0` yields 0, otherwise `dur / 58`. -/
def measureOnceCmRobust (st : State) (env : ℕ → ℚ) (k : ℕ) : ShotResult :=
  let pre : List Action :=
    [.writeTrig 0, .waitUs 4, .writeTrig 1, .waitUs 30, .writeTrig 0, .waitUs st.settleUs]
  let s1 : ℚ × ℕ × List Action :=
    if env k ≤ 0 then
      (env (k + 1), k + 2, pre ++ [.pulse .High st.maxUs, .pulse .Low st.maxUs])
    else (env k, k + 1, pre ++ [.pulse .High st.maxUs])
  let s2 : ℚ × ℕ × List Action :=
    if s1.1 ≤ 0 then
      let retrig : List Action :=
        [.waitUs 200, .writeTrig 1, .waitUs 20, .writeTrig 0, .waitUs st.settleUs]
      if env s1.2.1 ≤ 0 then
        (env (s1.2.1 + 1), s1.2.1 + 2,
          s1.2.2 ++ retrig ++ [.pulse .High st.maxUs, .pulse .Low st.maxUs])
      else (env s1.2.1, s1.2.1 + 1, s1.2.2 ++ retrig ++ [.pulse .High st.maxUs])
    else s1
  { cm := if s2.1 ≤ 0 then 0 else s2.1 / 58, next := s2.2.1, acts := s2.2.2 }

/-- Result of the sampling loop of `ultrasonic33.distance`: the `vals`
array, the next unconsumed reading index, and the number of single-shot
measurements performed. -/
structure DistRes where
  vals : List ℚ
  next : ℕ
  shots : ℕ

/-- The `for` loop of `ultrasonic33.distance`:
`if (cm > 0) vals.push(cm)` per iteration. -/
def distanceAux (st : State) (env : ℕ → ℚ) : ℕ → ℕ → List ℚ → DistRes
  | k, 0, vals => ⟨vals, k, 0⟩
  | k, n + 1, vals =>
    let r := measureOnceCmRobust st env k
    let rest := distanceAux st env r.next n (if 0 < r.cm then vals ++ [r.cm] else vals)
    ⟨rest.vals, rest.next, rest.shots + 1⟩

/-- Number of iterations of `for (let i = 0; i < samples; i++)` for a JS
number `samples` (no clamping is applied in `ultrasonic33.distance`). -/
def iterCount (samples : ℚ) : ℕ := ⌈samples⌉.toNat

/-- The `vals` array collected by `ultrasonic33.distance`. -/
def distanceVals (st : State) (env : ℕ → ℚ) (k : ℕ) (samples : ℚ) : List ℚ :=
  (distanceAux st env k (iterCount samples) []).vals

/-- The selection `vals.sort((a, b) => a - b); vals[vals.length >> 1]`: ascending sort,
then the upper-middle element (`>> 1` is floor division by 2). -/
def medianSelect (vals : List ℚ) : ℚ :=
  (List.insertionSort (· ≤ ·) vals).getD (vals.length / 2) 0

/-- Embedding of `ultrasonic33.distance`: collect samples, return 0 if none survived,
else the floor-based median, converted to inches if requested. -/
def distance (st : State) (env : ℕ → ℚ) (k : ℕ) (unit : Unit) (samples : ℚ) : ℚ :=
  let vals := distanceVals st env k samples
  if vals.length = 0 then 0
  else
    let med := medianSelect vals
    if unit = Unit.Inches then med / 2.54 else med

/-- Number of single-shot measurements performed by `ultrasonic33.distance`. -/
def distanceShots (st : State) (env : ℕ → ℚ) (k : ℕ) (samples : ℚ) : ℕ :=
  (distanceAux st env k (iterCount samples) []).shots

/-- Polarities of the `pulseIn` calls in an action trace, in order. -/
def pulseList (acts : List Action) : List Pulse :=
  acts.filterMap fun a => match a with
    | .pulse p _ => some p
    | _ => none

/-- The list of single-shot values produced by the loop of
`ultrasonic33.distance`. -/
def robustVals (st : State) (env : ℕ → ℚ) : ℕ → ℕ → List ℚ
  | _, 0 => []
  | k, n + 1 =>
    (measureOnceCmRobust st env k).cm ::
      robustVals st env (measureOnceCmRobust st env k).next n

end ultrasonic33

/-- Pulse environment realising standard-variant samples `[10, 0, 20]` cm
(durations 580µs, 0µs, 1160µs). -/
def envMean : ℕ → ℚ := fun j => [580, 0, 1160].getD j 0

/-- Pulse environment realising robust-variant samples `[12, 15, 9]` cm
(durations 696µs, 870µs, 522µs). -/
def envOdd : ℕ → ℚ := fun j => [696, 870, 522].getD j 0

/-- Pulse environment realising robust-variant samples `[10, 20, 30, 40]`
cm (durations 580µs, 1160µs, 1740µs, 2320µs). -/
def envEven : ℕ → ℚ := fun j => [580, 1160, 1740, 2320].getD j 0

namespace ultrasonic

lemma measureOnceCm_nonneg (env : ℕ → ℚ) (k : ℕ) : 0 ≤ measureOnceCm env k := by
  simp only [measureOnceCm]
  by_cases h : env k ≤ 0
  · rw [if_pos h]
  · rw [if_neg h]
    exact div_nonneg (le_of_lt (lt_of_not_le h)) (by norm_num)

lemma readVals_nonneg (env : ℕ → ℚ) :
    ∀ (n k : ℕ), ∀ x ∈ readVals env k n, 0 ≤ x := by
  intro n
  induction n with
  | zero => intro k x hx; simp [readVals] at hx
  | succ n ih =>
    intro k x hx
    rcases (List.mem_cons).mp hx with h | h
    · exact h ▸ measureOnceCm_nonneg env k
    · exact ih (k + 1) x h

lemma readAux_spec (env : ℕ → ℚ) :
    ∀ (n k : ℕ) (sum : ℚ) (cnt : ℕ),
      readAux env k n sum cnt =
        ⟨sum + ((readVals env k n).filter fun x => decide (0 < x)).sum,
         cnt + ((readVals env k n).filter fun x => decide (0 < x)).length,
         k + n, n⟩ := by
  intro n
  induction n with
  | zero =>
    intro k sum cnt
    simp [readAux, readVals]
  | succ n ih =>
    intro k sum cnt
    by_cases h : 0 < measureOnceCm env k
    · simp only [readAux, readVals, ih, List.filter_cons, h, decide_eq_true_eq, if_true,
        List.sum_cons, List.length_cons]
      simp only [ReadAcc.mk.injEq]
      refine ⟨?_, ?_, ?_, ?_⟩ <;> first | trivial | ring | omega
    · simp only [readAux, readVals, ih, List.filter_cons, h, decide_eq_true_eq, if_false]
      simp only [ReadAcc.mk.injEq]
      refine ⟨?_, ?_, ?_, ?_⟩ <;> first | trivial | ring | omega

lemma read_cm_spec (st : State) (env : ℕ → ℚ) (k : ℕ) (s : ℚ) :
    read st env k Unit.Centimeters s =
      if ((readVals env k (clampSamples s)).filter fun x => decide (0 < x)).length = 0
      then 0
      else ((readVals env k (clampSamples s)).filter fun x => decide (0 < x)).sum /
        (((readVals env k (clampSamples s)).filter fun x => decide (0 < x)).length : ℚ) := by
  simp only [read, readAux_spec env (clampSamples s) k 0 0, zero_add, Nat.zero_add]
  rcases Nat.eq_zero_or_pos
      ((readVals env k (clampSamples s)).filter fun x => decide (0 < x)).length with h | h
  · simp [h]
  · simp [h, Nat.pos_iff_ne_zero.mp h]

lemma read_inches (st : State) (env : ℕ → ℚ) (k : ℕ) (s : ℚ) :
    read st env k Unit.Inches s = read st env k Unit.Centimeters s / 2.54 := by
  simp [read]

lemma read_nonneg (st : State) (env : ℕ → ℚ) (k : ℕ) (u : Unit) (s : ℚ) :
    0 ≤ read st env k u s := by
  have hcm : 0 ≤ read st env k Unit.Centimeters s := by
    rw [read_cm_spec]
    split
    · exact le_refl 0
    · refine div_nonneg (List.sum_nonneg ?_) (by positivity)
      intro x hx
      exact readVals_nonneg env (clampSamples s) k x (List.mem_of_mem_filter hx)
  cases u with
  | Centimeters => exact hcm
  | Inches =>
    rw [read_inches]
    exact div_nonneg hcm (by norm_num)

lemma read_shots_clamped (env : ℕ → ℚ) (k : ℕ) (s : ℚ) :
    readShots env k s = clampSamples s := by
  simp [readShots, readAux_spec]

lemma watcherTrace_getD (st : State) (env : ℕ → ℚ) (t : ℚ) :
    ∀ (iters k i : ℕ), i < iters →
      (watcherTrace st env t k iters).getD i (0, false) =
        (distanceCm st env (k + i),
         decide (0 < distanceCm st env (k + i) ∧
                 distanceCm st env (k + i) < (clampThreshold t : ℚ))) := by
  intro iters
  induction iters with
  | zero => intro k i hi; omega
  | succ n ih =>
    intro k i hi
    cases i with
    | zero => simp [watcherTrace]
    | succ i =>
      have h1 : i < n := by omega
      have h2 : k + 1 + i = k + (i + 1) := by omega
      simpa [watcherTrace, h2] using ih (k + 1) i h1

end ultrasonic

namespace ultrasonic33

lemma measureOnceCmRobust_all_fail (st : State) (env : ℕ → ℚ) (k : ℕ)
    (h : ∀ j, env j ≤ 0) :
    measureOnceCmRobust st env k =
      ⟨0, k + 4,
       [.writeTrig 0, .waitUs 4, .writeTrig 1, .waitUs 30, .writeTrig 0,
        .waitUs st.settleUs, .pulse .High st.maxUs, .pulse .Low st.maxUs,
        .waitUs 200, .writeTrig 1, .waitUs 20, .writeTrig 0, .waitUs st.settleUs,
        .pulse .High st.maxUs, .pulse .Low st.maxUs]⟩ := by
  simp [measureOnceCmRobust, h k, h (k + 1), h (k + 2), h (k + 3)]

lemma measureOnceCmRobust_first_pos (st : State) (env : ℕ → ℚ) (k : ℕ)
    (h : 0 < env k) :
    measureOnceCmRobust st env k =
      ⟨env k / 58, k + 1,
       [.writeTrig 0, .waitUs 4, .writeTrig 1, .waitUs 30, .writeTrig 0,
        .waitUs st.settleUs, .pulse .High st.maxUs]⟩ := by
  have h' : ¬ env k ≤ 0 := not_le.mpr h
  simp [measureOnceCmRobust, h']

lemma measureOnceCmRobust_cm_nonneg (st : State) (env : ℕ → ℚ) (k : ℕ) :
    0 ≤ (measureOnceCmRobust st env k).cm := by
  by_cases h1 : env k ≤ 0 <;> by_cases h2 : env (k + 1) ≤ 0 <;>
    by_cases h3 : env (k + 2) ≤ 0 <;> by_cases h4 : env (k + 3) ≤ 0 <;>
    simp [measureOnceCmRobust, h1, h2, h3, h4] <;>
    first
      | exact div_nonneg (le_of_lt (lt_of_not_le h1)) (by norm_num)
      | exact div_nonneg (le_of_lt (lt_of_not_le h2)) (by norm_num)
      | exact div_nonneg (le_of_lt (lt_of_not_le h3)) (by norm_num)
      | exact div_nonneg (le_of_lt (lt_of_not_le h4)) (by norm_num)

lemma distanceAux_vals (st : State) (env : ℕ → ℚ) :
    ∀ (n k : ℕ) (vals : List ℚ),
      (distanceAux st env k n vals).vals =
        vals ++ (robustVals st env k n).filter fun x => decide (0 < x) := by
  intro n
  induction n with
  | zero => intro k vals; simp [distanceAux, robustVals]
  | succ n ih =>
    intro k vals
    by_cases h : 0 < (measureOnceCmRobust st env k).cm
    · simp [distanceAux, robustVals, ih, List.filter_cons, h]
    · simp [distanceAux, robustVals, ih, List.filter_cons, h]

lemma distanceAux_shots (st : State) (env : ℕ → ℚ) :
    ∀ (n k : ℕ) (vals : List ℚ), (distanceAux st env k n vals).shots = n := by
  intro n
  induction n with
  | zero => intro k vals; simp [distanceAux]
  | succ n ih => intro k vals; simp [distanceAux, ih]

lemma distanceVals_pos (st : State) (env : ℕ → ℚ) (k : ℕ) (s : ℚ) :
    ∀ x ∈ distanceVals st env k s, 0 < x := by
  intro x hx
  rw [distanceVals, distanceAux_vals] at hx
  simp only [List.nil_append] at hx
  have := List.of_mem_filter hx
  simpa using this

lemma distance_cm_eq (st : State) (env : ℕ → ℚ) (k : ℕ) (s : ℚ)
    (h : distanceVals st env k s ≠ []) :
    distance st env k Unit.Centimeters s = medianSelect (distanceVals st env k s) := by
  have hlen : (distanceVals st env k s).length ≠ 0 := by
    simpa [List.length_eq_zero] using h
  simp [distance, hlen]

lemma distance_inches_eq (st : State) (env : ℕ → ℚ) (k : ℕ) (s : ℚ) :
    distance st env k Unit.Inches s = distance st env k Unit.Centimeters s / 2.54 := by
  by_cases h : (distanceVals st env k s).length = 0
  · simp [distance, h]
  · simp [distance, h]

lemma medianSelect_mem (vals : List ℚ) (h : vals ≠ []) :
    medianSelect vals ∈ vals := by
  have hlen : (List.insertionSort (· ≤ ·) vals).length = vals.length :=
    (List.perm_insertionSort _ vals).length_eq
  have hpos : 0 < vals.length := List.length_pos.mpr h
  have hidx : vals.length / 2 < (List.insertionSort (· ≤ ·) vals).length := by
    rw [hlen]; exact Nat.div_lt_self hpos one_lt_two
  have hsel : medianSelect vals = (List.insertionSort (· ≤ ·) vals)[vals.length / 2] := by
    unfold medianSelect
    exact List.getD_eq_getElem _ _ hidx
  rw [hsel]
  exact (List.perm_insertionSort _ vals).mem_iff.mp (List.getElem_mem _)

lemma distance_nonneg (st : State) (env : ℕ → ℚ) (k : ℕ) (u : Unit) (s : ℚ) :
    0 ≤ distance st env k u s := by
  have hcm : 0 ≤ distance st env k Unit.Centimeters s := by
    by_cases h : distanceVals st env k s = []
    · simp [distance, h]
    · rw [distance_cm_eq st env k s h]
      exact le_of_lt (distanceVals_pos st env k s _ (medianSelect_mem _ h))
  cases u with
  | Centimeters => exact hcm
  | Inches =>
    rw [distance_inches_eq]
    exact div_nonneg hcm (by norm_num)

end ultrasonic33

namespace ultrasonic

lemma readVals_filter_all_fail (env : ℕ → ℚ) (h : ∀ j, env j ≤ 0) :
    ∀ (n k : ℕ), (readVals env k n).filter (fun x => decide (0 < x)) = [] := by
  intro n
  induction n with
  | zero => intro k; simp [readVals]
  | succ n ih =>
    intro k
    have hcm : measureOnceCm env k = 0 := by simp [measureOnceCm, h k]
    simp [readVals, List.filter_cons, hcm, ih]

end ultrasonic

namespace ultrasonic33

lemma robustVals_all_fail (st : State) (env : ℕ → ℚ) (h : ∀ j, env j ≤ 0) :
    ∀ (n k : ℕ), robustVals st env k n = List.replicate n 0 := by
  intro n
  induction n with
  | zero => intro k; simp [robustVals]
  | succ n ih =>
    intro k
    rw [robustVals, measureOnceCmRobust_all_fail st env k h, ih]
    simp [List.replicate_succ]

lemma distanceVals_all_fail (st : State) (env : ℕ → ℚ) (k : ℕ) (s : ℚ)
    (h : ∀ j, env j ≤ 0) : distanceVals st env k s = [] := by
  rw [distanceVals, distanceAux_vals, robustVals_all_fail st env h]
  simp

lemma pulseList_writeTrig (n : ℕ) (l : List Action) :
    pulseList (.writeTrig n :: l) = pulseList l := by
  simp [pulseList, List.filterMap_cons]

lemma pulseList_waitUs (us : ℤ) (l : List Action) :
    pulseList (.waitUs us :: l) = pulseList l := by
  simp [pulseList, List.filterMap_cons]

lemma pulseList_pulse (p : Pulse) (t : ℤ) (l : List Action) :
    pulseList (.pulse p t :: l) = p :: pulseList l := by
  simp [pulseList, List.filterMap_cons]

lemma pulseList_nil : pulseList [] = [] := rfl

lemma pulseList_append (l l' : List Action) :
    pulseList (l ++ l') = pulseList l ++ pulseList l' := by
  simp [pulseList, List.filterMap_append]

lemma pulseList_robust (st : State) (env : ℕ → ℚ) (k : ℕ) :
    pulseList (measureOnceCmRobust st env k).acts =
      List.take (pulseList (measureOnceCmRobust st env k).acts).length
        [Pulse.High, Pulse.Low, Pulse.High, Pulse.Low] ∧
    (pulseList (measureOnceCmRobust st env k).acts).length ≤ 4 := by
  by_cases h1 : env k ≤ 0 <;> by_cases h2 : env (k + 1) ≤ 0 <;>
    by_cases h3 : env (k + 2) ≤ 0 <;>
    simp [measureOnceCmRobust, h1, h2, h3, pulseList_append, pulseList_writeTrig,
      pulseList_waitUs, pulseList_pulse, pulseList_nil, List.take]

end ultrasonic33

lemma sum_map_div (l : List ℚ) (c : ℚ) : (l.map fun x => x / c).sum = l.sum / c := by
  induction l with
  | nil => simp
  | cons a t ih => simp [ih, add_div]

lemma orderedInsert_map_div (c : ℚ) (hc : 0 < c) (a : ℚ) (l : List ℚ) :
    List.orderedInsert (· ≤ ·) (a / c) (l.map fun x => x / c) =
      (List.orderedInsert (· ≤ ·) a l).map fun x => x / c := by
  induction l with
  | nil => simp
  | cons b t ih =>
    by_cases h : a ≤ b
    · have h' : a / c ≤ b / c := (div_le_div_iff_of_pos_right hc).mpr h
      simp [List.orderedInsert, h, h']
    · have h' : ¬ a / c ≤ b / c := fun hle => h ((div_le_div_iff_of_pos_right hc).mp hle)
      simp [List.orderedInsert, h, h', ih]

lemma insertionSort_map_div (c : ℚ) (hc : 0 < c) (l : List ℚ) :
    List.insertionSort (· ≤ ·) (l.map fun x => x / c) =
      (List.insertionSort (· ≤ ·) l).map fun x => x / c := by
  induction l with
  | nil => simp
  | cons a t ih => simp [List.insertionSort, ih, orderedInsert_map_div c hc]

lemma medianSelect_map_div (c : ℚ) (hc : 0 < c) (l : List ℚ) (h : l ≠ []) :
    ultrasonic33.medianSelect (l.map fun x => x / c) =
      ultrasonic33.medianSelect l / c := by
  have hlen : (List.insertionSort (· ≤ ·) l).length = l.length :=
    (List.perm_insertionSort _ l).length_eq
  have hpos : 0 < l.length := List.length_pos.mpr h
  have hidx : l.length / 2 < (List.insertionSort (· ≤ ·) l).length := by
    rw [hlen]; exact Nat.div_lt_self hpos one_lt_two
  have hidx' : l.length / 2 <
      ((List.insertionSort (· ≤ ·) l).map fun x => x / c).length := by
    simpa using hidx
  unfold ultrasonic33.medianSelect
  rw [List.length_map, insertionSort_map_div c hc,
    List.getD_eq_getElem _ _ hidx', List.getD_eq_getElem _ _ hidx,
    List.getElem_map]

/-- C1 (counterexample): the robust variant does not clamp the sample count.
With every pulse reading 580µs, requesting 0 samples performs 0 single-shot
measurements (not the claimed clamp to 1) and returns 0, while requesting
1 sample returns 10 cm — so 0 and 1 samples are not behaviourally equal. -/
theorem sampleCount_clamp_counterexample :
    ultrasonic33.distanceShots ultrasonic33.initState (fun _ => (580 : ℚ)) 0 0 = 0
    ∧ ultrasonic33.distanceShots ultrasonic33.initState (fun _ => (580 : ℚ)) 0 0 ≠
        (max 1 (min 9 (toInt32 0))).toNat
    ∧ ultrasonic33.distance ultrasonic33.initState (fun _ => (580 : ℚ)) 0
        ultrasonic33.Unit.Centimeters 0 = 0
    ∧ ultrasonic33.distance ultrasonic33.initState (fun _ => (580 : ℚ)) 0
        ultrasonic33.Unit.Centimeters 1 = 10 := by
  refine ⟨?_, ?_, ?_, ?_⟩
  · norm_num [ultrasonic33.distanceShots, ultrasonic33.distanceAux, ultrasonic33.iterCount]
  · norm_num [ultrasonic33.distanceShots, ultrasonic33.distanceAux, ultrasonic33.iterCount,
      toInt32, ratTrunc]
  · norm_num [ultrasonic33.distance, ultrasonic33.distanceVals, ultrasonic33.distanceAux,
      ultrasonic33.iterCount]
  · norm_num [ultrasonic33.distance, ultrasonic33.distanceVals, ultrasonic33.distanceAux,
      ultrasonic33.iterCount, ultrasonic33.measureOnceCmRobust, ultrasonic33.medianSelect,
      List.insertionSort, List.orderedInsert] <;> decide

/-- C1 (amended): the standard variant's `read` performs exactly
`max 1 (min 10 (sampleCount | 0))` single-shot measurements, so requesting
0 or 15 samples behaves identically to requesting 1 or 10; the robust
variant's `distance` applies no clamping at all and performs one
single-shot measurement per loop iteration of `i < samples`
(`⌈samples⌉⁺` iterations). -/
theorem sampleCount_clamped_amended (st : ultrasonic.State) (st3 : ultrasonic33.State)
    (env : ℕ → ℚ) (k : ℕ) (u : ultrasonic.Unit) (s : ℚ) :
    ultrasonic.readShots env k s = (max 1 (min 10 (toInt32 s))).toNat
    ∧ ultrasonic.read st env k u 0 = ultrasonic.read st env k u 1
    ∧ ultrasonic.read st env k u 15 = ultrasonic.read st env k u 10
    ∧ ultrasonic33.distanceShots st3 env k s = ultrasonic33.iterCount s := by
  have h01 : ultrasonic.clampSamples 0 = ultrasonic.clampSamples 1 := by decide
  have h1510 : ultrasonic.clampSamples 15 = ultrasonic.clampSamples 10 := by decide
  refine ⟨ultrasonic.read_shots_clamped env k s, ?_, ?_, ?_⟩
  · unfold ultrasonic.read; rw [h01]
  · unfold ultrasonic.read; rw [h1510]
  · simp [ultrasonic33.distanceShots, ultrasonic33.distanceAux_shots]

/-- C2: when the robust variant collected a non-empty list of valid samples,
its centimeter aggregate is the element at index `⌊n/2⌋` of the list sorted
ascending (upper-middle selection); the sorted list is indeed an ascending
permutation of the collected samples. -/
theorem robust_median_upper_middle (st3 : ultrasonic33.State) (env : ℕ → ℚ)
    (k : ℕ) (s : ℚ) (h : ultrasonic33.distanceVals st3 env k s ≠ []) :
    ultrasonic33.distance st3 env k ultrasonic33.Unit.Centimeters s =
      (List.insertionSort (· ≤ ·) (ultrasonic33.distanceVals st3 env k s)).getD
        ((ultrasonic33.distanceVals st3 env k s).length / 2) 0
    ∧ (List.insertionSort (· ≤ ·) (ultrasonic33.distanceVals st3 env k s)).Sorted (· ≤ ·)
    ∧ (List.insertionSort (· ≤ ·) (ultrasonic33.distanceVals st3 env k s)).Perm
        (ultrasonic33.distanceVals st3 env k s) :=
  ⟨(ultrasonic33.distance_cm_eq st3 env k s h).trans rfl,
   List.sorted_insertionSort _ _,
   List.perm_insertionSort _ _⟩

/-- C2 (witness): samples [12, 15, 9] aggregate to 12, and even-count
samples [10, 20, 30, 40] aggregate to 30 (upper-middle), not 25. -/
theorem robust_median_upper_middle_witness :
    ultrasonic33.distanceVals ultrasonic33.initState envOdd 0 3 ≠ []
    ∧ ultrasonic33.distance ultrasonic33.initState envOdd 0
        ultrasonic33.Unit.Centimeters 3 =
        (List.insertionSort (· ≤ ·)
          (ultrasonic33.distanceVals ultrasonic33.initState envOdd 0 3)).getD
          ((ultrasonic33.distanceVals ultrasonic33.initState envOdd 0 3).length / 2) 0
    ∧ ultrasonic33.distance ultrasonic33.initState envOdd 0
        ultrasonic33.Unit.Centimeters 3 = 12
    ∧ ultrasonic33.distance ultrasonic33.initState envEven 0
        ultrasonic33.Unit.Centimeters 4 = 30 := by
  have hvals : ultrasonic33.distanceVals ultrasonic33.initState envOdd 0 3 = [12, 15, 9] := by
    norm_num [ultrasonic33.distanceVals, ultrasonic33.distanceAux, ultrasonic33.iterCount,
      ultrasonic33.measureOnceCmRobust, envOdd]
  have hne : ultrasonic33.distanceVals ultrasonic33.initState envOdd 0 3 ≠ [] := by
    rw [hvals]; simp
  refine ⟨hne, (robust_median_upper_middle ultrasonic33.initState envOdd 0 3 hne).1, ?_, ?_⟩
  · norm_num [ultrasonic33.distance, ultrasonic33.distanceVals, ultrasonic33.distanceAux,
      ultrasonic33.iterCount, ultrasonic33.measureOnceCmRobust, ultrasonic33.medianSelect,
      List.insertionSort, List.orderedInsert, envOdd] <;> decide
  · norm_num [ultrasonic33.distance, ultrasonic33.distanceVals, ultrasonic33.distanceAux,
      ultrasonic33.iterCount, ultrasonic33.measureOnceCmRobust, ultrasonic33.medianSelect,
      List.insertionSort, List.orderedInsert, envEven] <;> decide

/-- C3: the standard variant's centimeter aggregate is the arithmetic mean
of only the single-shot samples strictly greater than 0 (0 if none);
with samples [10, 0, 20] the failed 0 sample is excluded from both sum and
divisor, giving (10+20)/2 = 15. -/
theorem standard_mean_valid_samples (st : ultrasonic.State) (env : ℕ → ℚ)
    (k : ℕ) (s : ℚ) :
    ultrasonic.read st env k ultrasonic.Unit.Centimeters s =
      (if ((ultrasonic.readVals env k (ultrasonic.clampSamples s)).filter
            fun x => decide (0 < x)).length = 0
       then 0
       else ((ultrasonic.readVals env k (ultrasonic.clampSamples s)).filter
              fun x => decide (0 < x)).sum /
         ((((ultrasonic.readVals env k (ultrasonic.clampSamples s)).filter
              fun x => decide (0 < x)).length : ℚ)))
    ∧ ultrasonic.readVals envMean 0 (ultrasonic.clampSamples 3) = [10, 0, 20]
    ∧ ultrasonic.read ultrasonic.initState envMean 0 ultrasonic.Unit.Centimeters 3 = 15 := by
  refine ⟨ultrasonic.read_cm_spec st env k s, ?_, ?_⟩
  · have h3 : ultrasonic.clampSamples 3 = 3 := by decide
    rw [h3]
    norm_num [ultrasonic.readVals, ultrasonic.measureOnceCm, envMean]
  · norm_num [ultrasonic.read, ultrasonic.readAux, ultrasonic.clampSamples, toInt32,
      ratTrunc, ultrasonic.measureOnceCm, envMean] <;> decide

/-- C4: if every pulse measurement available to an aggregate call returns a
duration ≤ 0, both variants' aggregate operations return exactly 0, for
either unit and any sample count. -/
theorem all_pulses_timeout_returns_zero (st : ultrasonic.State)
    (st3 : ultrasonic33.State) (env : ℕ → ℚ) (k : ℕ) (u : ultrasonic.Unit)
    (u3 : ultrasonic33.Unit) (s s3 : ℚ) (h : ∀ j, env j ≤ 0) :
    ultrasonic.read st env k u s = 0 ∧ ultrasonic33.distance st3 env k u3 s3 = 0 := by
  constructor
  · have hcm : ultrasonic.read st env k ultrasonic.Unit.Centimeters s = 0 := by
      rw [ultrasonic.read_cm_spec, ultrasonic.readVals_filter_all_fail env h]
      simp
    cases u with
    | Centimeters => exact hcm
    | Inches => rw [ultrasonic.read_inches, hcm]; norm_num
  · have hvals := ultrasonic33.distanceVals_all_fail st3 env k s3 h
    cases u3 with
    | Centimeters => simp [ultrasonic33.distance, hvals]
    | Inches => simp [ultrasonic33.distance, hvals]

/-- C4 (witness): with every pulse reading 0, both aggregates return 0. -/
theorem all_pulses_timeout_returns_zero_witness :
    (∀ j : ℕ, (fun _ : ℕ => (0 : ℚ)) j ≤ 0)
    ∧ ultrasonic.read ultrasonic.initState (fun _ => (0 : ℚ)) 0
        ultrasonic.Unit.Centimeters 3 = 0
    ∧ ultrasonic33.distance ultrasonic33.initState (fun _ => (0 : ℚ)) 0
        ultrasonic33.Unit.Inches 5 = 0 := by
  have h : ∀ j : ℕ, (fun _ : ℕ => (0 : ℚ)) j ≤ 0 := fun _ => le_refl 0
  have happ := all_pulses_timeout_returns_zero ultrasonic.initState
    ultrasonic33.initState (fun _ => (0 : ℚ)) 0 ultrasonic.Unit.Centimeters
    ultrasonic33.Unit.Inches 3 5 h
  exact ⟨h, happ.1, happ.2⟩

/-- C5: a single-shot measurement whose pulse duration is d converts it to
d/58 centimeters when d > 0 and returns the sentinel 0 when d ≤ 0, in both
variants; a duration of 580µs yields exactly 10 cm. -/
theorem single_shot_conversion (st3 : ultrasonic33.State) (d : ℚ) (k : ℕ) :
    ultrasonic.measureOnceCm (fun _ => d) k = (if d ≤ 0 then 0 else d / 58)
    ∧ (ultrasonic33.measureOnceCmRobust st3 (fun _ => d) k).cm =
        (if d ≤ 0 then 0 else d / 58)
    ∧ ultrasonic.measureOnceCm (fun _ => (580 : ℚ)) k = 10
    ∧ (ultrasonic33.measureOnceCmRobust st3 (fun _ => (580 : ℚ)) k).cm = 10 := by
  refine ⟨rfl, ?_, ?_, ?_⟩
  · by_cases hd : d ≤ 0
    · rw [ultrasonic33.measureOnceCmRobust_all_fail st3 _ k (fun _ => hd), if_pos hd]
    · rw [ultrasonic33.measureOnceCmRobust_first_pos st3 _ k (lt_of_not_le hd), if_neg hd]
  · norm_num [ultrasonic.measureOnceCm]
  · rw [ultrasonic33.measureOnceCmRobust_first_pos st3 _ k (by norm_num)]
    norm_num

/-- C6: the robust single-shot measurement makes at most 4 pulseIn attempts
whose polarities always form a prefix of [HIGH, LOW, HIGH, LOW]; when every
attempt fails it returns 0 after performing exactly the full fixed ladder:
trigger (30µs), settle, HIGH then LOW attempt, one re-trigger with a 20µs
pulse, settle, HIGH then LOW attempt again. -/
theorem robust_retry_ladder (st3 : ultrasonic33.State) (env : ℕ → ℚ) (k : ℕ) :
    ultrasonic33.pulseList (ultrasonic33.measureOnceCmRobust st3 env k).acts =
      List.take (ultrasonic33.pulseList
          (ultrasonic33.measureOnceCmRobust st3 env k).acts).length
        [ultrasonic33.Pulse.High, ultrasonic33.Pulse.Low,
         ultrasonic33.Pulse.High, ultrasonic33.Pulse.Low]
    ∧ (ultrasonic33.pulseList (ultrasonic33.measureOnceCmRobust st3 env k).acts).length ≤ 4
    ∧ ((∀ j, env j ≤ 0) →
        (ultrasonic33.measureOnceCmRobust st3 env k).cm = 0
        ∧ (ultrasonic33.measureOnceCmRobust st3 env k).acts =
            [.writeTrig 0, .waitUs 4, .writeTrig 1, .waitUs 30, .writeTrig 0,
             .waitUs st3.settleUs, .pulse .High st3.maxUs, .pulse .Low st3.maxUs,
             .waitUs 200, .writeTrig 1, .waitUs 20, .writeTrig 0, .waitUs st3.settleUs,
             .pulse .High st3.maxUs, .pulse .Low st3.maxUs]) := by
  refine ⟨(ultrasonic33.pulseList_robust st3 env k).1,
          (ultrasonic33.pulseList_robust st3 env k).2, ?_⟩
  intro h
  rw [ultrasonic33.measureOnceCmRobust_all_fail st3 env k h]
  exact ⟨rfl, rfl⟩

/-- C6 (witness): with every pulse reading 0 (all attempts fail), the
robust single-shot returns 0 after the full 4-attempt ladder. -/
theorem robust_retry_ladder_witness :
    (∀ j : ℕ, (fun _ : ℕ => (0 : ℚ)) j ≤ 0)
    ∧ (ultrasonic33.measureOnceCmRobust ultrasonic33.initState (fun _ => (0 : ℚ)) 0).cm = 0
    ∧ (ultrasonic33.measureOnceCmRobust ultrasonic33.initState (fun _ => (0 : ℚ)) 0).acts =
        [.writeTrig 0, .waitUs 4, .writeTrig 1, .waitUs 30, .writeTrig 0,
         .waitUs 600, .pulse .High 40000, .pulse .Low 40000,
         .waitUs 200, .writeTrig 1, .waitUs 20, .writeTrig 0, .waitUs 600,
         .pulse .High 40000, .pulse .Low 40000] := by
  have h : ∀ j : ℕ, (fun _ : ℕ => (0 : ℚ)) j ≤ 0 := fun _ => le_refl 0
  have happ := (robust_retry_ladder ultrasonic33.initState (fun _ => (0 : ℚ)) 0).2.2 h
  exact ⟨h, happ.1, happ.2⟩

/-- C7: for every (possibly out-of-range, possibly non-integer) numeric
input, the stored `maxWaitMicros` after either variant's timing
configuration lies in [3000, 60000] and the robust variant's stored
`settleMicros` lies in [100, 2000]. -/
theorem timing_config_clamped (s : ultrasonic.State) (s3 : ultrasonic33.State)
    (q q1 q2 : ℚ) :
    (3000 ≤ (ultrasonic.setMaxMicros s q).maxUs
      ∧ (ultrasonic.setMaxMicros s q).maxUs ≤ 60000)
    ∧ (3000 ≤ (ultrasonic33.setTiming s3 q1 q2).maxUs
      ∧ (ultrasonic33.setTiming s3 q1 q2).maxUs ≤ 60000)
    ∧ (100 ≤ (ultrasonic33.setTiming s3 q1 q2).settleUs
      ∧ (ultrasonic33.setTiming s3 q1 q2).settleUs ≤ 2000) := by
  refine ⟨⟨le_max_left _ _, ?_⟩,
          ⟨le_trans (by norm_num) (le_max_left _ _), ?_⟩,
          ⟨le_max_left _ _, ?_⟩⟩
  · exact max_le (by norm_num) (le_trans (min_le_left _ _) (by norm_num))
  · exact max_le (by norm_num) (min_le_left _ _)
  · exact max_le (by norm_num) (min_le_left _ _)

/-- C8: on every iteration of a registered threshold watcher's polling
loop, the handler is invoked if and only if the measured distance cm
satisfies cm > 0 and cm < threshold clamped to [2, 400]; in particular it
never fires on a 0 (failed) reading. -/
theorem watcher_fires_iff (st : ultrasonic.State) (env : ℕ → ℚ) (t : ℚ)
    (iters k i : ℕ) (h : i < iters) :
    ((ultrasonic.watcherTrace st env t k iters).getD i (0, false)).1 =
      ultrasonic.distanceCm st env (k + i)
    ∧ (((ultrasonic.watcherTrace st env t k iters).getD i (0, false)).2 = true ↔
        (0 < ultrasonic.distanceCm st env (k + i) ∧
         ultrasonic.distanceCm st env (k + i) < (ultrasonic.clampThreshold t : ℚ))) := by
  rw [ultrasonic.watcherTrace_getD st env t iters k i h]
  exact ⟨rfl, by simp⟩

/-- C8 (witness): with a 100 cm threshold and every pulse reading 580µs
(10 cm), the first poll iteration fires the handler. -/
theorem watcher_fires_iff_witness :
    (0 : ℕ) < 1
    ∧ ((ultrasonic.watcherTrace ultrasonic.initState (fun _ : ℕ => (580 : ℚ)) 100 0 1).getD
        0 (0, false)).1 = ultrasonic.distanceCm ultrasonic.initState (fun _ : ℕ => (580 : ℚ)) (0 + 0)
    ∧ (((ultrasonic.watcherTrace ultrasonic.initState (fun _ : ℕ => (580 : ℚ)) 100 0 1).getD
        0 (0, false)).2 = true ↔
        (0 < ultrasonic.distanceCm ultrasonic.initState (fun _ : ℕ => (580 : ℚ)) (0 + 0) ∧
         ultrasonic.distanceCm ultrasonic.initState (fun _ : ℕ => (580 : ℚ)) (0 + 0) <
           (ultrasonic.clampThreshold 100 : ℚ))) := by
  have happ := watcher_fires_iff ultrasonic.initState (fun _ : ℕ => (580 : ℚ)) 100 1 0 0
    (by norm_num)
  exact ⟨by norm_num, happ.1, happ.2⟩

/-- C9: inch conversion divides the final aggregated centimeter value by
2.54 exactly once, and this commutes with aggregation: the standard
variant's inch result is the mean of the per-sample converted values, and
the robust variant's inch result is the upper-middle selection applied to
the per-sample converted values. -/
theorem unit_conversion_commutes (st : ultrasonic.State) (st3 : ultrasonic33.State)
    (env : ℕ → ℚ) (k : ℕ) (s s3 : ℚ)
    (hm : (ultrasonic.readVals env k (ultrasonic.clampSamples s)).filter
      (fun x => decide (0 < x)) ≠ [])
    (hv : ultrasonic33.distanceVals st3 env k s3 ≠ []) :
    ultrasonic.read st env k ultrasonic.Unit.Inches s =
      ultrasonic.read st env k ultrasonic.Unit.Centimeters s / 2.54
    ∧ ultrasonic33.distance st3 env k ultrasonic33.Unit.Inches s3 =
        ultrasonic33.distance st3 env k ultrasonic33.Unit.Centimeters s3 / 2.54
    ∧ ultrasonic.read st env k ultrasonic.Unit.Inches s =
        (((ultrasonic.readVals env k (ultrasonic.clampSamples s)).filter
            (fun x => decide (0 < x))).map fun x => x / 2.54).sum /
        (((((ultrasonic.readVals env k (ultrasonic.clampSamples s)).filter
            (fun x => decide (0 < x))).map fun x => x / 2.54).length : ℚ))
    ∧ ultrasonic33.distance st3 env k ultrasonic33.Unit.Inches s3 =
        ultrasonic33.medianSelect
          ((ultrasonic33.distanceVals st3 env k s3).map fun x => x / 2.54) := by
  have hlen : ((ultrasonic.readVals env k (ultrasonic.clampSamples s)).filter
      (fun x => decide (0 < x))).length ≠ 0 := by
    simpa [List.length_eq_zero] using hm
  refine ⟨ultrasonic.read_inches st env k s,
          ultrasonic33.distance_inches_eq st3 env k s3, ?_, ?_⟩
  · rw [ultrasonic.read_inches, ultrasonic.read_cm_spec, if_neg hlen,
      sum_map_div, List.length_map]
    exact div_right_comm _ _ _
  · rw [ultrasonic33.distance_inches_eq, ultrasonic33.distance_cm_eq st3 env k s3 hv]
    exact (medianSelect_map_div 2.54 (by norm_num) _ hv).symm

/-- C9 (witness): with pulse durations 580, 1160, 1740, 2320µs, the
standard variant (3 samples [10, 20, 30]) and the robust variant
(4 samples [10, 20, 30, 40]) both have non-empty valid-sample lists, and
the commutation properties hold there. -/
theorem unit_conversion_commutes_witness :
    (ultrasonic.readVals envEven 0 (ultrasonic.clampSamples 3)).filter
      (fun x => decide (0 < x)) ≠ []
    ∧ ultrasonic33.distanceVals ultrasonic33.initState envEven 0 4 ≠ []
    ∧ ultrasonic.read ultrasonic.initState envEven 0 ultrasonic.Unit.Inches 3 =
        ultrasonic.read ultrasonic.initState envEven 0 ultrasonic.Unit.Centimeters 3 / 2.54
    ∧ ultrasonic33.distance ultrasonic33.initState envEven 0 ultrasonic33.Unit.Inches 4 =
        ultrasonic33.medianSelect
          ((ultrasonic33.distanceVals ultrasonic33.initState envEven 0 4).map
            fun x => x / 2.54) := by
  have h3 : ultrasonic.clampSamples 3 = 3 := by decide
  have hm : (ultrasonic.readVals envEven 0 (ultrasonic.clampSamples 3)).filter
      (fun x => decide (0 < x)) ≠ [] := by
    rw [h3]
    norm_num [ultrasonic.readVals, ultrasonic.measureOnceCm, envEven, List.filter_cons]
    simp
  have hv : ultrasonic33.distanceVals ultrasonic33.initState envEven 0 4 ≠ [] := by
    have : ultrasonic33.distanceVals ultrasonic33.initState envEven 0 4 =
        [10, 20, 30, 40] := by
      norm_num [ultrasonic33.distanceVals, ultrasonic33.distanceAux,
        ultrasonic33.iterCount, ultrasonic33.measureOnceCmRobust, envEven]
    rw [this]; simp
  have happ := unit_conversion_commutes ultrasonic.initState ultrasonic33.initState
    envEven 0 3 4 hm hv
  exact ⟨hm, hv, happ.1, happ.2.2.2⟩

/-- C10: for every pulse environment (including negative durations), both
variants' aggregate operations return a value ≥ 0, for every unit, sample
count and starting state: failed measurements can never surface as a
negative distance. -/
theorem aggregate_nonneg (st : ultrasonic.State) (st3 : ultrasonic33.State)
    (env : ℕ → ℚ) (k : ℕ) (u : ultrasonic.Unit) (u3 : ultrasonic33.Unit)
    (s s3 : ℚ) :
    0 ≤ ultrasonic.read st env k u s ∧ 0 ≤ ultrasonic33.distance st3 env k u3 s3 :=
  ⟨ultrasonic.read_nonneg st env k u s, ultrasonic33.distance_nonneg st3 env k u3 s3⟩
